import Mathlib

/-!
Verification of the dephub-core version/constraint engine (Composer and PIP
dialects).  The definitions below are a shallow embedding of the Go sources
`versioneer/composer.go` and `providers/ver/pip.go`: strings are `List Char`,
Go's `(T, error)` results are `Option`, and the two anchored regular
expressions (`versionRgx` and the constraint regex `^\s*(op)\s*(wildcardRgx)\s*$`)
are embedded as deterministic full-input recognizers with the same capture
groups.  Greedy matching of each regex is deterministic here because every
repeated character class is disjoint from the characters that may follow it,
and the operator alternation admits at most one decomposition of any input,
so the embedded recognizers accept exactly the regex languages with the same
captures.  Numeric segments are `Nat` (the Go code parses `[0-9]+` with
`strconv.ParseInt(_, 10, 0)`, so values are non-negative and parsing fails
from 2^63 up).
-/

namespace Dephub

/-- A parsed version: three numeric segments plus the original raw text
(field `value` in both `ComposerVersion` and `PipVersion`; the two Go structs
have identical shape and accessors). -/
structure SemVer where
  major : Nat
  minor : Nat
  patch : Nat
  value : List Char
deriving DecidableEq

/-- Wildcard position of a constraint clause.  The Go code uses the integer
constants wildcardNone = -1, wildcardMajor = 0, wildcardMinor = 1,
wildcardPatch = 2. -/
inductive Wildcard where
  | none
  | major
  | minor
  | patch
deriving DecidableEq

/-- Go `strings.ToLower` restricted to ASCII (the only case mapping that can
produce characters of the version grammar). -/
def goLower (c : Char) : Char :=
  if 'A' ≤ c ∧ c ≤ 'Z' then Char.ofNat (c.toNat + 32) else c

/-- `[0-9]` of the version regex. -/
def isDigit (c : Char) : Bool :=
  '0' ≤ c && c ≤ '9'

/-- The wildcard segment class `[0-9|x|X|\*]` of `wildcardRgx` (note that the
Go character class literally contains the pipe character). -/
def isWChar (c : Char) : Bool :=
  isDigit c || c == '|' || c == 'x' || c == 'X' || c == '*'

/-- The pre-release / build-metadata class `[0-9A-Za-z\-]`. -/
def isPreChar (c : Char) : Bool :=
  isDigit c || ('a' ≤ c && c ≤ 'z') || ('A' ≤ c && c ≤ 'Z') || c == '-'

/-- Go regexp `\s`, i.e. `[\t\n\f\r ]`. -/
def isSpace (c : Char) : Bool :=
  c == ' ' || c == '\t' || c == '\n' || c == '\r' || c == '\x0c'

/-- Split on a separator predicate keeping empty fields
(`strings.Split` for a one-character separator). -/
def splitPred (p : Char → Bool) : List Char → List (List Char)
  | [] => [[]]
  | c :: t =>
    if p c then [] :: splitPred p t
    else
      match splitPred p t with
      | [] => [[c]]
      | h :: r => (c :: h) :: r

/-- Go `strings.Split(s, ",")`. -/
def splitComma (l : List Char) : List (List Char) :=
  splitPred (· == ',') l

/-- Go `strings.Split(s, "||")`: left-to-right non-overlapping occurrences of
the two-character separator. -/
def splitOr : List Char → List (List Char)
  | '|' :: '|' :: t => [] :: splitOr t
  | c :: t =>
    match splitOr t with
    | [] => [[c]]
    | h :: r => (c :: h) :: r
  | [] => [[]]

/-- Go `strings.FieldsFunc`: split at separator runs, dropping empty fields. -/
def fieldsFunc (p : Char → Bool) (l : List Char) : List (List Char) :=
  (splitPred p l).filter (· ≠ [])

/-- Numeric value of a digit string. -/
def natOfDigits (l : List Char) : Nat :=
  l.foldl (fun a c => a * 10 + (c.toNat - 48)) 0

/-- Go `strconv.ParseInt(digits, 10, 0)` on a non-empty digit string: succeeds
with the value when it fits a signed 64-bit integer, errors otherwise. -/
def parseSegInt (l : List Char) : Option Nat :=
  let n := natOfDigits l
  if n < 2 ^ 63 then some n else Option.none

/-- Recognize `p+(\.p+)*` against the whole list (`p` never accepts a dot). -/
def isDotRun (p : Char → Bool) (l : List Char) : Bool :=
  (splitPred (· == '.') l).all (fun seg => !seg.isEmpty && seg.all p)

/-- Recognize the suffix `(-(P))?(\+(B))?` against the whole list, where `P`
and `B` are `[0-9A-Za-z\-]+(\.[0-9A-Za-z\-]+)*`.  Returns the text captured
by the pre-release group including its leading dash (`matches[6]` of the
constraint regex), or `none` when the suffix does not match. -/
def matchSuffix (l : List Char) : Option (List Char) :=
  let pre := l.takeWhile (· ≠ '+')
  let rest := l.dropWhile (· ≠ '+')
  let preOk := pre.isEmpty || (decide (pre.head? = some '-') && isDotRun isPreChar pre.tail)
  match rest with
  | [] => if preOk then some pre else Option.none
  | _ :: b => if preOk && isDotRun isPreChar b then some pre else Option.none

/-- Greedily match an optional group `(\.seg+)?`: when the input starts with a
dot followed by at least one `p`-character, consume the dot and the maximal
`p`-run and capture it (without the dot), otherwise leave the input alone. -/
def takeDotSeg (p : Char → Bool) (l : List Char) : Option (List Char) × List Char :=
  match l with
  | '.' :: rest =>
    let seg := rest.takeWhile p
    if seg.isEmpty then (Option.none, l) else (some seg, rest.dropWhile p)
  | _ => (Option.none, l)

/-- The optional `v?` at the front of both version grammars: strip one
leading `v` when present (skipping it can never succeed when consuming it
fails, since `v` is not a segment character). -/
def stripV (l : List Char) : List Char :=
  if l.head? = some 'v' then l.tail else l

/-- Core of the anchored version regex
`^v?([0-9]+)(\.[0-9]+)?(\.[0-9]+)?(\.[0-9]+)?(-P)?(\+B)?$` (the fourth
numeric group only for PIP).  Input must already be lower-cased.  Returns the
three parsed segments; the PIP fourth segment is consumed by the grammar but
never converted (the Go code ignores `matches[4]`). -/
def parseVerCore (fourth : Bool) (l : List Char) : Option (Nat × Nat × Nat) :=
  let l1 := stripV l
  let d1 := l1.takeWhile isDigit
  if d1.isEmpty then Option.none
  else
    let r1 := l1.dropWhile isDigit
    let (d2, r2) := takeDotSeg isDigit r1
    let (d3, r3) := takeDotSeg isDigit r2
    let (_, r4) := if fourth then takeDotSeg isDigit r3 else (Option.none, r3)
    match matchSuffix r4 with
    | Option.none => Option.none
    | some _ =>
      match parseSegInt d1 with
      | Option.none => Option.none
      | some vMajor =>
        match (match d2 with | Option.none => some 0 | some d => parseSegInt d) with
        | Option.none => Option.none
        | some vMinor =>
          match (match d3 with | Option.none => some 0 | some d => parseSegInt d) with
          | Option.none => Option.none
          | some vPatch => some (vMajor, vMinor, vPatch)

/-- Go `NewComposerVersion`: lower-case, match the anchored composer version
regex (three numeric segments), keep the original text in `value`. -/
def NewComposerVersion (value : List Char) : Option SemVer :=
  match parseVerCore false (value.map goLower) with
  | Option.none => Option.none
  | some (a, b, c) => some ⟨a, b, c, value⟩

/-- Go `NewPipVersion`: same as composer but the grammar allows a fourth
numeric segment, which is ignored. -/
def NewPipVersion (value : List Char) : Option SemVer :=
  match parseVerCore true (value.map goLower) with
  | Option.none => Option.none
  | some (a, b, c) => some ⟨a, b, c, value⟩

/-- The capture groups of the constraint regex needed by the parser:
`raw` is `matches[2]` (the whole version part), `vMajor` is `matches[3]`,
`vMinor`/`vPatch` are `matches[4]`/`matches[5]` with their leading dot already
trimmed (empty when the group is absent), `pre` is `matches[6]` (the
pre-release part including its leading dash, empty when absent). -/
structure WCaps where
  raw : List Char
  vMajor : List Char
  vMinor : List Char
  vPatch : List Char
  pre : List Char
deriving DecidableEq

/-- Match the wildcard version pattern
`v?(W+)(\.W+)?(\.W+)?(-(P))?(\+(B))?` (with `W = [0-9|x|X|\*]`) against a
prefix of `l`, followed only by whitespace.  Returns the captures and the
trailing whitespace remainder; `none` when the anchored pattern fails. -/
def parseWVersion (l : List Char) : Option (WCaps × List Char) :=
  let l1 := stripV l
  let mj := l1.takeWhile isWChar
  if mj.isEmpty then Option.none
  else
    let r1 := l1.dropWhile isWChar
    let (mi, r2) := takeDotSeg isWChar r1
    let (pa, r3) := takeDotSeg isWChar r2
    let suf := r3.takeWhile (fun c => !isSpace c)
    let trail := r3.dropWhile (fun c => !isSpace c)
    match matchSuffix suf with
    | Option.none => Option.none
    | some pre =>
      let raw := l.take (l.length - trail.length)
      some (⟨raw, mj, mi.getD [], pa.getD [], pre⟩, trail)

/-- One parsed Composer unary constraint (Go struct `composerConstraint`).
The Go struct also stores the comparison function looked up from the operator
table; here the lookup is performed at match time from the stored operator
token, which is equivalent because the table is immutable. -/
structure ComposerConstraint where
  operator : List Char
  raw : List Char
  ver : SemVer
  wildcard : Wildcard
deriving DecidableEq

/-- One parsed PIP unary constraint (Go struct `pipConstraint`). -/
structure PipConstraint where
  operator : List Char
  raw : List Char
  ver : SemVer
  wildcard : Wildcard
deriving DecidableEq

/-- Go `composerConstraintEqual`.  (The Go function ends with an unreachable
`return false` after the four-case switch on the wildcard constants.) -/
def composerConstraintEqual (v : SemVer) (c : ComposerConstraint) : Bool :=
  match c.wildcard with
  | Wildcard.none =>
    decide (v.major = c.ver.major) && decide (v.minor = c.ver.minor)
      && decide (v.patch = c.ver.patch)
  | Wildcard.major => true
  | Wildcard.minor => decide (v.major = c.ver.major)
  | Wildcard.patch => decide (v.major = c.ver.major) && decide (v.minor = c.ver.minor)

/-- Go `composerConstraintNotEqual`. -/
def composerConstraintNotEqual (v : SemVer) (c : ComposerConstraint) : Bool :=
  !composerConstraintEqual v c

/-- Go `composerConstraintGreaterThan`: lexicographic on
(major, minor, patch), first differing segment decides. -/
def composerConstraintGreaterThan (v : SemVer) (c : ComposerConstraint) : Bool :=
  if v.major ≠ c.ver.major then decide (c.ver.major < v.major)
  else if v.minor ≠ c.ver.minor then decide (c.ver.minor < v.minor)
  else if v.patch ≠ c.ver.patch then decide (c.ver.patch < v.patch)
  else false

/-- Go `composerConstraintLessThan`. -/
def composerConstraintLessThan (v : SemVer) (c : ComposerConstraint) : Bool :=
  if v.major ≠ c.ver.major then decide (v.major < c.ver.major)
  else if v.minor ≠ c.ver.minor then decide (v.minor < c.ver.minor)
  else if v.patch ≠ c.ver.patch then decide (v.patch < c.ver.patch)
  else false

/-- Go `composerConstraintGreaterThanEqual`. -/
def composerConstraintGreaterThanEqual (v : SemVer) (c : ComposerConstraint) : Bool :=
  composerConstraintEqual v c || composerConstraintGreaterThan v c

/-- Go `composerConstraintLessThanEqual`. -/
def composerConstraintLessThanEqual (v : SemVer) (c : ComposerConstraint) : Bool :=
  composerConstraintEqual v c || composerConstraintLessThan v c

/-- Go `composerConstraintTilde`. -/
def composerConstraintTilde (v : SemVer) (c : ComposerConstraint) : Bool :=
  if composerConstraintLessThan v c then false
  else if c.wildcard = Wildcard.none ∧ v.major = c.ver.major ∧ c.ver.minor < v.minor + 1 then
    true
  else if c.wildcard = Wildcard.patch ∧ v.major = c.ver.major ∧ c.ver.major < v.major + 1 then
    true
  else if c.wildcard = Wildcard.major ∨ (c.ver.major = 0 ∧ c.ver.minor = 0 ∧ c.ver.patch = 0) then
    true
  else false

/-- Go `composerConstraintCaret`. -/
def composerConstraintCaret (v : SemVer) (c : ComposerConstraint) : Bool :=
  if composerConstraintLessThan v c then false
  else if c.wildcard = Wildcard.patch ∧ v.major = c.ver.major then
    decide (v.minor = c.ver.minor)
  else composerConstraintTilde v c

/-- The Composer operator table `composerCfg.operators`.  An operator token
outside the table cannot be produced by the parser; Go would store a nil
function for it (a panic at call time), modelled as constantly `false`. -/
def composerCompare (op : List Char) : SemVer → ComposerConstraint → Bool :=
  if op = [] then composerConstraintEqual
  else if op = ['!', '='] then composerConstraintNotEqual
  else if op = ['>'] then composerConstraintGreaterThan
  else if op = ['<'] then composerConstraintLessThan
  else if op = ['>', '='] then composerConstraintGreaterThanEqual
  else if op = ['<', '='] then composerConstraintLessThanEqual
  else if op = ['~'] then composerConstraintTilde
  else if op = ['^'] then composerConstraintCaret
  else fun _ _ => false

/-- Go method `composerConstraint.match`: dispatch through the operator. -/
def composerUnaryMatch (c : ComposerConstraint) (v : SemVer) : Bool :=
  composerCompare c.operator v c

/-- Go `pipConstraintEqual` (same comparison shape as composer). -/
def pipConstraintEqual (v : SemVer) (c : PipConstraint) : Bool :=
  match c.wildcard with
  | Wildcard.none =>
    decide (v.major = c.ver.major) && decide (v.minor = c.ver.minor)
      && decide (v.patch = c.ver.patch)
  | Wildcard.major => true
  | Wildcard.minor => decide (v.major = c.ver.major)
  | Wildcard.patch => decide (v.major = c.ver.major) && decide (v.minor = c.ver.minor)

/-- Go `pipConstraintArbitraryEqual`: plain string equality between the
version's raw text and the clause's captured version text. -/
def pipConstraintArbitraryEqual (v : SemVer) (c : PipConstraint) : Bool :=
  decide (v.value = c.raw)

/-- Go `pipConstraintNotEqual`. -/
def pipConstraintNotEqual (v : SemVer) (c : PipConstraint) : Bool :=
  !pipConstraintEqual v c

/-- Go `pipConstraintGreaterThan`. -/
def pipConstraintGreaterThan (v : SemVer) (c : PipConstraint) : Bool :=
  if v.major ≠ c.ver.major then decide (c.ver.major < v.major)
  else if v.minor ≠ c.ver.minor then decide (c.ver.minor < v.minor)
  else if v.patch ≠ c.ver.patch then decide (c.ver.patch < v.patch)
  else false

/-- Go `pipConstraintLessThan`. -/
def pipConstraintLessThan (v : SemVer) (c : PipConstraint) : Bool :=
  if v.major ≠ c.ver.major then decide (v.major < c.ver.major)
  else if v.minor ≠ c.ver.minor then decide (v.minor < c.ver.minor)
  else if v.patch ≠ c.ver.patch then decide (v.patch < c.ver.patch)
  else false

/-- Go `pipConstraintGreaterThanEqual`. -/
def pipConstraintGreaterThanEqual (v : SemVer) (c : PipConstraint) : Bool :=
  pipConstraintEqual v c || pipConstraintGreaterThan v c

/-- Go `pipConstraintLessThanEqual`. -/
def pipConstraintLessThanEqual (v : SemVer) (c : PipConstraint) : Bool :=
  pipConstraintEqual v c || pipConstraintLessThan v c

/-- Go `pipConstraintTildeEqual` (textually identical to the composer tilde). -/
def pipConstraintTildeEqual (v : SemVer) (c : PipConstraint) : Bool :=
  if pipConstraintLessThan v c then false
  else if c.wildcard = Wildcard.none ∧ v.major = c.ver.major ∧ c.ver.minor < v.minor + 1 then
    true
  else if c.wildcard = Wildcard.patch ∧ v.major = c.ver.major ∧ c.ver.major < v.major + 1 then
    true
  else if c.wildcard = Wildcard.major ∨ (c.ver.major = 0 ∧ c.ver.minor = 0 ∧ c.ver.patch = 0) then
    true
  else false

/-- The PIP operator table `pipCfg.operators`. -/
def pipCompare (op : List Char) : SemVer → PipConstraint → Bool :=
  if op = [] then pipConstraintEqual
  else if op = ['=', '='] then pipConstraintEqual
  else if op = ['=', '=', '='] then pipConstraintArbitraryEqual
  else if op = ['!', '='] then pipConstraintNotEqual
  else if op = ['>'] then pipConstraintGreaterThan
  else if op = ['<'] then pipConstraintLessThan
  else if op = ['>', '='] then pipConstraintGreaterThanEqual
  else if op = ['<', '='] then pipConstraintLessThanEqual
  else if op = ['~', '='] then pipConstraintTildeEqual
  else fun _ _ => false

/-- Go method `pipConstraint.match`. -/
def pipUnaryMatch (c : PipConstraint) (v : SemVer) : Bool :=
  pipCompare c.operator v c

/-- Strip the Composer operator token from the input.  The regex alternation
over the operator tokens has a unique viable decomposition for every input
(no operator character can begin the version pattern, and an operator that is
a strict prefix of another leaves a stray `=` that nothing can consume), so
longest-token-first is equivalent to the compiled alternation regardless of
the map iteration order that built it. -/
def stripComposerOp : List Char → List Char × List Char
  | '!' :: '=' :: t => (['!', '='], t)
  | '>' :: '=' :: t => (['>', '='], t)
  | '<' :: '=' :: t => (['<', '='], t)
  | '>' :: t => (['>'], t)
  | '<' :: t => (['<'], t)
  | '~' :: t => (['~'], t)
  | '^' :: t => (['^'], t)
  | t => ([], t)

/-- Strip the PIP operator token (same uniqueness argument; note PIP has no
bare `~` operator and no bare `=`). -/
def stripPipOp : List Char → List Char × List Char
  | '=' :: '=' :: '=' :: t => (['=', '=', '='], t)
  | '=' :: '=' :: t => (['=', '='], t)
  | '!' :: '=' :: t => (['!', '='], t)
  | '>' :: '=' :: t => (['>', '='], t)
  | '<' :: '=' :: t => (['<', '='], t)
  | '~' :: '=' :: t => (['~', '='], t)
  | '>' :: t => (['>'], t)
  | '<' :: t => (['<'], t)
  | t => ([], t)

/-- The wildcard-normalization common to both constraint parsers: from the
captured segment texts, the first `*` or omitted segment (major → minor →
patch) fixes the wildcard position and the reference version text is rebuilt
with the remaining segments forced to 0 (keeping the captured pre-release
part `matches[6]`). -/
def normalizeWildcard (caps : WCaps) : List Char × Wildcard :=
  if caps.vMajor = ['*'] then (['0', '.', '0', '.', '0'], Wildcard.major)
  else if caps.vMinor = ['*'] ∨ caps.vMinor = [] then
    (caps.vMajor ++ ['.', '0', '.', '0'] ++ caps.pre, Wildcard.minor)
  else if caps.vPatch = ['*'] ∨ caps.vPatch = [] then
    (caps.vMajor ++ ['.'] ++ caps.vMinor ++ ['.', '0'] ++ caps.pre, Wildcard.patch)
  else (caps.raw, Wildcard.none)

/-- Go `parseComposerConstraint`: match the anchored
`^\s*(op)\s*(wildcard version)\s*$` regex, derive the wildcard position and
the normalized reference version, and parse that version. -/
def parseComposerConstraint (c : List Char) : Option ComposerConstraint :=
  match parseWVersion ((stripComposerOp (c.dropWhile isSpace)).2.dropWhile isSpace) with
  | Option.none => Option.none
  | some (caps, trail) =>
    if trail.all isSpace then
      match NewComposerVersion (normalizeWildcard caps).1 with
      | Option.none => Option.none
      | some vrs =>
        some ⟨(stripComposerOp (c.dropWhile isSpace)).1, caps.raw, vrs,
          (normalizeWildcard caps).2⟩
    else Option.none

/-- Go `parsePipConstraint` (identical to the composer clause parser except
for the operator table; the wildcard version pattern is the same, with three
numeric groups). -/
def parsePipConstraint (c : List Char) : Option PipConstraint :=
  match parseWVersion ((stripPipOp (c.dropWhile isSpace)).2.dropWhile isSpace) with
  | Option.none => Option.none
  | some (caps, trail) =>
    if trail.all isSpace then
      match NewPipVersion (normalizeWildcard caps).1 with
      | Option.none => Option.none
      | some vrs =>
        some ⟨(stripPipOp (c.dropWhile isSpace)).1, caps.raw, vrs,
          (normalizeWildcard caps).2⟩
    else Option.none

/-- Parse every token of a list, failing as soon as one token fails (the Go
loops return the first error). -/
def parseList {α : Type} (f : List Char → Option α) : List (List Char) → Option (List α)
  | [] => some []
  | x :: xs =>
    match f x, parseList f xs with
    | some a, some ys => some (a :: ys)
    | _, _ => Option.none

/-- Go struct `ComposerConstraints`: the original text and the OR-groups of
AND-clauses. -/
structure ComposerConstraints where
  value : List Char
  constraints : List (List ComposerConstraint)
deriving DecidableEq

/-- Go struct `PipConstraints`: the original text and a flat AND-clause list. -/
structure PipConstraints where
  value : List Char
  constraints : List PipConstraint
deriving DecidableEq

/-- Go `NewComposerConstraints`: split on `||` into OR-groups, split each
group on commas and spaces (dropping empty fields), parse every clause. -/
def NewComposerConstraints (value : List Char) : Option ComposerConstraints :=
  match parseList (fun g => parseList parseComposerConstraint
      (fieldsFunc (fun r => r == ',' || r == ' ') g)) (splitOr value) with
  | Option.none => Option.none
  | some ors => some ⟨value, ors⟩

/-- Go `NewPipConstraints`: split on `,` only (keeping empty clauses, which
then fail to parse), parse every clause. -/
def NewPipConstraints (value : List Char) : Option PipConstraints :=
  match parseList parsePipConstraint (splitComma value) with
  | Option.none => Option.none
  | some ands => some ⟨value, ands⟩

/-- Go method `ComposerConstraints.Match`: true iff some OR-group has all of
its clauses match. -/
def ComposerConstraints.Match (cc : ComposerConstraints) (ver : SemVer) : Bool :=
  cc.constraints.any (fun grp => grp.all (fun u => composerUnaryMatch u ver))

/-- Go method `ComposerConstraints.Value`. -/
def ComposerConstraints.Value (cc : ComposerConstraints) : List Char :=
  cc.value

/-- Go method `PipConstraints.Match`: true iff all clauses match. -/
def PipConstraints.Match (cc : PipConstraints) (ver : SemVer) : Bool :=
  cc.constraints.all (fun u => pipUnaryMatch u ver)

/-- Go method `PipConstraints.Value`. -/
def PipConstraints.Value (cc : PipConstraints) : List Char :=
  cc.value

/-- Go method `ComposerVersion.Value` / `PipVersion.Value`. -/
def SemVer.Value (v : SemVer) : List Char :=
  v.value

/-- End-to-end evaluation: parse a Composer constraint expression and a
Composer version and match them (`none` when either parse fails). -/
def composerMatches (cs vs : List Char) : Option Bool :=
  match NewComposerConstraints cs, NewComposerVersion vs with
  | some cc, some v => some (cc.Match v)
  | _, _ => Option.none

/-- End-to-end evaluation for PIP. -/
def pipMatches (cs vs : List Char) : Option Bool :=
  match NewPipConstraints cs, NewPipVersion vs with
  | some cc, some v => some (cc.Match v)
  | _, _ => Option.none

/-! Concrete strings used by the example-level facts below. -/

def exC1 : List Char := (r">=1.2.3,<=1.4.0||98.1.*").data

def ex9823 : List Char := (r"98.2.3").data

def ex132 : List Char := (r"1.3.2").data

def exPipAnd : List Char := (r">=1.2,<2.0").data

def ex15 : List Char := (r"1.5").data

def exTE22 : List Char := (r"~=2.2").data

def ex23 : List Char := (r"2.3").data

def ex21 : List Char := (r"2.1").data

def ex30 : List Char := (r"3.0").data

def exCaret123 : List Char := (r"^1.2.3").data

def ex123v : List Char := (r"1.2.3").data

def ex193 : List Char := (r"1.9.3").data

def ex113 : List Char := (r"1.1.3").data

def ex223 : List Char := (r"2.2.3").data

def exSpaces : List Char := [' ', ' ', ' ']

def exGe10Or : List Char := (r">=1.0||").data

def exFoo : List Char := (r"foo").data

def exOneX : List Char := (r"1.x").data

def exOneXCap : List Char := (r"1.X").data

def exOneStar : List Char := (r"1.*").data

def exOne : List Char := (r"1").data

def exOneTwo : List Char := (r"1.2").data

def exOneZero : List Char := (r"1.0").data

def exOneZeroZero : List Char := (r"1.0.0").data

def exOneStarThree : List Char := (r"1.*.3").data

def ex3star : List Char := (r"3.*").data

def ex399 : List Char := (r"3.9.9").data

def ex300 : List Char := (r"3.0.0").data

def ex3170 : List Char := (r"3.17.0").data

def ex400 : List Char := (r"4.0.0").data

def exHi : List Char := (r"hi1.2.3").data

def exTrail : List Char := (r"1.2.3!").data

def exSinglePipe : List Char := (r">=1.2.3|<=1.4.0").data

def exEqEqEqV3 : List Char := (r"===v3").data

def ex370 : List Char := (r"3.7.0").data

def exV3raw : List Char := (r"v3").data

def exTilde1 : List Char := (r"~1").data

def ex150 : List Char := (r"1.5.0").data

def exTEStar1 : List Char := (r"~=1.*").data

def exTE0 : List Char := (r"~=0").data

def ex555 : List Char := (r"5.5.5").data

def exV123 : List Char := (r"V1.2.3").data

def exP1234 : List Char := (r"1.2.3.4").data

def exCaret12 : List Char := (r"^1.2").data

def exOneTwoZero : List Char := (r"1.2.0").data

def exTwoTwo : List Char := (r"2.2").data

def exTwoTwoZero : List Char := (r"2.2.0").data

/-! Structural lemmas about the parsers, shared by several claims. -/

/-- A successfully parsed Composer version stores the input verbatim. -/
theorem composerVersion_value {s : List Char} {v : SemVer}
    (h : NewComposerVersion s = some v) : v.value = s := by
  unfold NewComposerVersion at h
  split at h
  · exact absurd h (by simp)
  · cases h
    rfl

/-- A successfully parsed PIP version stores the input verbatim. -/
theorem pipVersion_value {s : List Char} {v : SemVer}
    (h : NewPipVersion s = some v) : v.value = s := by
  unfold NewPipVersion at h
  split at h
  · exact absurd h (by simp)
  · cases h
    rfl

/-- Successfully parsed Composer constraints store the input verbatim. -/
theorem composerConstraints_value {s : List Char} {cc : ComposerConstraints}
    (h : NewComposerConstraints s = some cc) : cc.value = s := by
  unfold NewComposerConstraints at h
  split at h
  · exact absurd h (by simp)
  · cases h
    rfl

/-- Successfully parsed PIP constraints store the input verbatim. -/
theorem pipConstraints_value {s : List Char} {cc : PipConstraints}
    (h : NewPipConstraints s = some cc) : cc.value = s := by
  unfold NewPipConstraints at h
  split at h
  · exact absurd h (by simp)
  · cases h
    rfl

/-- `parseList` fails as soon as any token fails. -/
theorem parseList_none_of_mem {α : Type} (f : List Char → Option α) {x : List Char}
    {l : List (List Char)} (hx : x ∈ l) (hf : f x = Option.none) :
    parseList f l = Option.none := by
  induction l with
  | nil => exact absurd hx (List.not_mem_nil x)
  | cons a t ih =>
    rcases List.mem_cons.mp hx with h | h
    · subst h
      simp [parseList, hf]
    · unfold parseList
      rw [ih h]
      cases f a <;> rfl

/-- A normalized clause whose wildcard position is major has the zero
reference text `0.0.0` (the `major == "*"` branch is the only one that
assigns `wildcardMajor`). -/
theorem normalizeWildcard_major {caps : WCaps}
    (h : (normalizeWildcard caps).2 = Wildcard.major) :
    (normalizeWildcard caps).1 = ['0', '.', '0', '.', '0'] := by
  unfold normalizeWildcard at h ⊢
  split at h
  · split
    · rfl
    · simp_all
  · split at h
    · exact absurd h (by simp)
    · split at h
      · exact absurd h (by simp)
      · exact absurd h (by simp)

/-- A parsed Composer clause with a major wildcard has the reference version
0.0.0. -/
theorem composer_major_wildcard_zero {s : List Char} {u : ComposerConstraint}
    (h : parseComposerConstraint s = some u) (hw : u.wildcard = Wildcard.major) :
    u.ver.major = 0 ∧ u.ver.minor = 0 ∧ u.ver.patch = 0 := by
  unfold parseComposerConstraint at h
  rcases hpw : parseWVersion (((stripComposerOp (s.dropWhile isSpace)).2).dropWhile isSpace) with _ | ⟨caps, trail⟩
  · rw [hpw] at h
    exact absurd h (by simp)
  · rw [hpw] at h
    simp only at h
    split at h
    · rcases hv : NewComposerVersion (normalizeWildcard caps).1 with _ | vrs
      · rw [hv] at h
        exact absurd h (by simp)
      · rw [hv] at h
        cases h
        have hz := normalizeWildcard_major hw
        rw [hz] at hv
        have : NewComposerVersion ['0', '.', '0', '.', '0'] =
            some ⟨0, 0, 0, ['0', '.', '0', '.', '0']⟩ := by decide
        rw [this] at hv
        cases hv
        exact ⟨rfl, rfl, rfl⟩
    · exact absurd h (by simp)

/-- A parsed PIP clause with a major wildcard has the reference version
0.0.0. -/
theorem pip_major_wildcard_zero {s : List Char} {u : PipConstraint}
    (h : parsePipConstraint s = some u) (hw : u.wildcard = Wildcard.major) :
    u.ver.major = 0 ∧ u.ver.minor = 0 ∧ u.ver.patch = 0 := by
  unfold parsePipConstraint at h
  rcases hpw : parseWVersion (((stripPipOp (s.dropWhile isSpace)).2).dropWhile isSpace) with _ | ⟨caps, trail⟩
  · rw [hpw] at h
    exact absurd h (by simp)
  · rw [hpw] at h
    simp only at h
    split at h
    · rcases hv : NewPipVersion (normalizeWildcard caps).1 with _ | vrs
      · rw [hv] at h
        exact absurd h (by simp)
      · rw [hv] at h
        cases h
        have hz := normalizeWildcard_major hw
        rw [hz] at hv
        have : NewPipVersion ['0', '.', '0', '.', '0'] =
            some ⟨0, 0, 0, ['0', '.', '0', '.', '0']⟩ := by decide
        rw [this] at hv
        cases hv
        exact ⟨rfl, rfl, rfl⟩
    · exact absurd h (by simp)

/-! Claim theorems. -/

/-- Claim C1: for every parsed Composer constraint and every version, `Match`
returns true iff at least one `||`-separated OR-group has all of its
comma/whitespace-separated unary clauses match; for every parsed PIP
constraint, `Match` returns true iff every comma-separated unary clause
matches.  In particular the Composer constraint `>=1.2.3,<=1.4.0||98.1.*`
(which splits into an OR-group of two AND-clauses plus a singleton OR-group)
does not match version `98.2.3` and does match `1.3.2`. -/
theorem C1_match_boolean_structure :
    (∀ (cc : ComposerConstraints) (v : SemVer),
        cc.Match v = true ↔
          ∃ g, g ∈ cc.constraints ∧ ∀ u, u ∈ g → composerUnaryMatch u v = true) ∧
    (∀ (pc : PipConstraints) (v : SemVer),
        pc.Match v = true ↔ ∀ u, u ∈ pc.constraints → pipUnaryMatch u v = true) ∧
    (NewComposerConstraints exC1).map (fun cc => cc.constraints.map List.length) =
      some [2, 1] ∧
    composerMatches exC1 ex9823 = some false ∧
    composerMatches exC1 ex132 = some true ∧
    pipMatches exPipAnd ex15 = some true ∧
    pipMatches exPipAnd ex21 = some false := by
  refine ⟨?_, ?_, ?_, ?_, ?_, ?_, ?_⟩
  · intro cc v
    simp [ComposerConstraints.Match, List.any_eq_true, List.all_eq_true]
  · intro pc v
    simp [PipConstraints.Match, List.all_eq_true]
  · decide
  · decide
  · decide
  · decide
  · decide

/-- Witness for C1: the ∃/∀ characterization applied to a concrete
constraint value and version. -/
theorem C1_witness :
    ∃ g, g ∈ (ComposerConstraints.mk [] [[]]).constraints ∧
      ∀ u, u ∈ g → composerUnaryMatch u ⟨1, 2, 3, []⟩ = true :=
  (C1_match_boolean_structure.1 ⟨[], [[]]⟩ ⟨1, 2, 3, []⟩).mp (by decide)

/-- Claim C6: the equal operator (and the empty operator, which maps to it in
both operator tables) compares all three segments with no wildcard, accepts
everything on a major wildcard, compares only majors on a minor wildcard, and
compares major and minor on a patch wildcard.  The constraint `3.*` matches
`3.9.9`, `3.0.0` and `3.17.0` but not `4.0.0`. -/
theorem C6_equal_operator (v : SemVer) (c : ComposerConstraint) (p : PipConstraint) :
    (c.wildcard = Wildcard.none →
      (composerConstraintEqual v c = true ↔
        (v.major = c.ver.major ∧ v.minor = c.ver.minor ∧ v.patch = c.ver.patch))) ∧
    (c.wildcard = Wildcard.major → composerConstraintEqual v c = true) ∧
    (c.wildcard = Wildcard.minor →
      (composerConstraintEqual v c = true ↔ v.major = c.ver.major)) ∧
    (c.wildcard = Wildcard.patch →
      (composerConstraintEqual v c = true ↔
        (v.major = c.ver.major ∧ v.minor = c.ver.minor))) ∧
    (p.wildcard = Wildcard.none →
      (pipConstraintEqual v p = true ↔
        (v.major = p.ver.major ∧ v.minor = p.ver.minor ∧ v.patch = p.ver.patch))) ∧
    (p.wildcard = Wildcard.major → pipConstraintEqual v p = true) ∧
    (p.wildcard = Wildcard.minor →
      (pipConstraintEqual v p = true ↔ v.major = p.ver.major)) ∧
    (p.wildcard = Wildcard.patch →
      (pipConstraintEqual v p = true ↔
        (v.major = p.ver.major ∧ v.minor = p.ver.minor))) ∧
    composerCompare [] = composerConstraintEqual ∧
    pipCompare [] = pipConstraintEqual ∧
    pipCompare ['=', '='] = pipConstraintEqual ∧
    composerMatches ex3star ex399 = some true ∧
    composerMatches ex3star ex300 = some true ∧
    composerMatches ex3star ex3170 = some true ∧
    composerMatches ex3star ex400 = some false ∧
    pipMatches ex3star ex3170 = some true ∧
    pipMatches ex3star ex400 = some false := by
  refine ⟨?_, ?_, ?_, ?_, ?_, ?_, ?_, ?_, rfl, rfl, rfl,
    by decide, by decide, by decide, by decide, by decide, by decide⟩ <;>
    intro hw <;> simp [composerConstraintEqual, pipConstraintEqual, hw, and_assoc]

/-- Witness for C6: the minor-wildcard case applied to a concrete version and
clause. -/
theorem C6_witness :
    composerConstraintEqual ⟨3, 9, 9, []⟩ ⟨[], [], ⟨3, 0, 0, []⟩, Wildcard.minor⟩ = true :=
  ((C6_equal_operator ⟨3, 9, 9, []⟩ ⟨[], [], ⟨3, 0, 0, []⟩, Wildcard.minor⟩
    ⟨[], [], ⟨0, 0, 0, []⟩, Wildcard.none⟩).2.2.1 rfl).mpr rfl

/-- Claim C8: the PIP arbitrary-equal operator `===` compares the version's
raw text with the clause's captured literal reference text by plain string
equality, ignoring the numeric reference version and the wildcard position;
`===v3` does not match version `3.7.0` but matches version `v3`. -/
theorem C8_arbitrary_equal :
    (∀ (v : SemVer) (c : PipConstraint),
        pipConstraintArbitraryEqual v c = true ↔ v.value = c.raw) ∧
    (∀ (v : SemVer) (c : PipConstraint) (w : Wildcard) (rv : SemVer),
        pipConstraintArbitraryEqual v ⟨c.operator, c.raw, rv, w⟩ =
          pipConstraintArbitraryEqual v c) ∧
    (parsePipConstraint exEqEqEqV3).map (fun u => (u.operator, u.raw)) =
      some (['=', '=', '='], ['v', '3']) ∧
    pipMatches exEqEqEqV3 ex370 = some false ∧
    pipMatches exEqEqEqV3 exV3raw = some true := by
  refine ⟨?_, ?_, by decide, by decide, by decide⟩
  · intro v c
    simp [pipConstraintArbitraryEqual]
  · intro v c w rv
    rfl

/-- Witness for C8: literal string equality at a concrete version and
clause. -/
theorem C8_witness :
    pipConstraintArbitraryEqual ⟨3, 0, 0, ['v', '3']⟩
      ⟨['=', '=', '='], ['v', '3'], ⟨3, 0, 0, []⟩, Wildcard.minor⟩ = true :=
  (C8_arbitrary_equal.1 ⟨3, 0, 0, ['v', '3']⟩
    ⟨['=', '=', '='], ['v', '3'], ⟨3, 0, 0, []⟩, Wildcard.minor⟩).mpr rfl

/-- Claim C5 (the code at the claim's inputs): contrary to the claim, `x` and
`X` are accepted only by the clause grammar's character class, not by the
wildcard detection (which checks for the literal `*` or an omitted segment),
so the clauses `1.x` and `1.X` fail to parse in both ecosystems — the
rebuilt reference text `1.x.0` is not a valid version — while `1.*` parses
with wildcard position minor.  The `*`/omission part of the claim does hold:
`1` and `1.2` fix the wildcard at the first omitted segment with later
segments forced to 0, and in `1.*.3` the segment after the wildcard is
irrelevant and forced to 0. -/
theorem C5_wildcard_markers :
    parseComposerConstraint exOneX = Option.none ∧
    parseComposerConstraint exOneXCap = Option.none ∧
    parsePipConstraint exOneX = Option.none ∧
    parsePipConstraint exOneXCap = Option.none ∧
    (parseComposerConstraint exOneStar).map (fun u => u.wildcard) =
      some Wildcard.minor ∧
    (parsePipConstraint exOneStar).map (fun u => u.wildcard) = some Wildcard.minor ∧
    (parseComposerConstraint exOne).map
      (fun u => (u.wildcard, u.ver.major, u.ver.minor, u.ver.patch)) =
      some (Wildcard.minor, 1, 0, 0) ∧
    (parseComposerConstraint exOneTwo).map
      (fun u => (u.wildcard, u.ver.major, u.ver.minor, u.ver.patch)) =
      some (Wildcard.patch, 1, 2, 0) ∧
    (parseComposerConstraint exOneStarThree).map
      (fun u => (u.wildcard, u.ver.minor, u.ver.patch)) =
      some (Wildcard.minor, 0, 0) := by
  decide

/-- Claim C4 (counterexample): the Composer parser does not fail on the empty
string, a whitespace-only expression, or an expression with an empty OR
alternative — all three construct a Constraints value. -/
theorem C4_counterexample_empty_composer :
    (NewComposerConstraints []).isSome = true ∧
    (NewComposerConstraints exSpaces).isSome = true ∧
    (NewComposerConstraints exGe10Or).isSome = true := by
  decide

/-- With equal majors, a version that is not lexicographically below the
reference has at least the reference's minor. -/
theorem composer_minor_ge_of_not_less {v : SemVer} {c : ComposerConstraint}
    (hl : composerConstraintLessThan v c = false) (hm : v.major = c.ver.major) :
    c.ver.minor ≤ v.minor := by
  unfold composerConstraintLessThan at hl
  rw [hm] at hl
  split at hl
  · exact absurd rfl (by assumption)
  · split at hl
    · simp only [decide_eq_false_iff_not, Nat.not_lt] at hl
      omega
    · omega

/-- PIP version of `composer_minor_ge_of_not_less`. -/
theorem pip_minor_ge_of_not_less {v : SemVer} {c : PipConstraint}
    (hl : pipConstraintLessThan v c = false) (hm : v.major = c.ver.major) :
    c.ver.minor ≤ v.minor := by
  unfold pipConstraintLessThan at hl
  rw [hm] at hl
  split at hl
  · exact absurd rfl (by assumption)
  · split at hl
    · simp only [decide_eq_false_iff_not, Nat.not_lt] at hl
      omega
    · omega

/-- The lexicographic less-than never holds against the zero reference. -/
theorem composer_not_less_zero {v : SemVer} {c : ComposerConstraint}
    (h1 : c.ver.major = 0) (h2 : c.ver.minor = 0) (h3 : c.ver.patch = 0) :
    composerConstraintLessThan v c = false := by
  unfold composerConstraintLessThan
  rw [h1, h2, h3]
  split
  · simp
  · split
    · simp
    · split
      · simp
      · rfl

/-- PIP version of `composer_not_less_zero`. -/
theorem pip_not_less_zero {v : SemVer} {c : PipConstraint}
    (h1 : c.ver.major = 0) (h2 : c.ver.minor = 0) (h3 : c.ver.patch = 0) :
    pipConstraintLessThan v c = false := by
  unfold pipConstraintLessThan
  rw [h1, h2, h3]
  split
  · simp
  · split
    · simp
    · split
      · simp
      · rfl

/-- Claim C2: for the Composer tilde and the PIP tilde-equal operator, the
match is false whenever the version is lexicographically below the
reference; it is true unconditionally for the zero reference 0.0.0 (which is
exactly what a major-wildcard clause carries after parsing, see the last two
parser conjuncts); otherwise, for a no-wildcard or patch-wildcard reference,
the match holds iff the version is not below the reference and has the
reference's major (a no-wildcard reference thereby locks the major and lets
the minor grow, a patch-wildcard reference locks the major only).  PIP
`~=2.2` matches `2.3` but neither `2.1` nor `3.0`. -/
theorem C2_tilde_semantics (v : SemVer) (c : ComposerConstraint) (p : PipConstraint) :
    (composerConstraintLessThan v c = true → composerConstraintTilde v c = false) ∧
    (c.ver.major = 0 ∧ c.ver.minor = 0 ∧ c.ver.patch = 0 →
      composerConstraintTilde v c = true) ∧
    ((c.wildcard = Wildcard.none ∨ c.wildcard = Wildcard.patch) →
      ¬(c.ver.major = 0 ∧ c.ver.minor = 0 ∧ c.ver.patch = 0) →
      (composerConstraintTilde v c = true ↔
        (composerConstraintLessThan v c = false ∧ v.major = c.ver.major))) ∧
    (pipConstraintLessThan v p = true → pipConstraintTildeEqual v p = false) ∧
    (p.ver.major = 0 ∧ p.ver.minor = 0 ∧ p.ver.patch = 0 →
      pipConstraintTildeEqual v p = true) ∧
    ((p.wildcard = Wildcard.none ∨ p.wildcard = Wildcard.patch) →
      ¬(p.ver.major = 0 ∧ p.ver.minor = 0 ∧ p.ver.patch = 0) →
      (pipConstraintTildeEqual v p = true ↔
        (pipConstraintLessThan v p = false ∧ v.major = p.ver.major))) ∧
    (∀ s u, parseComposerConstraint s = some u → u.wildcard = Wildcard.major →
      u.ver.major = 0 ∧ u.ver.minor = 0 ∧ u.ver.patch = 0) ∧
    (∀ s u, parsePipConstraint s = some u → u.wildcard = Wildcard.major →
      u.ver.major = 0 ∧ u.ver.minor = 0 ∧ u.ver.patch = 0) ∧
    pipMatches exTE22 ex23 = some true ∧
    pipMatches exTE22 ex21 = some false ∧
    pipMatches exTE22 ex30 = some false := by
  refine ⟨?_, ?_, ?_, ?_, ?_, ?_,
    fun s u h hw => composer_major_wildcard_zero h hw,
    fun s u h hw => pip_major_wildcard_zero h hw,
    by decide, by decide, by decide⟩
  · intro h
    simp [composerConstraintTilde, h]
  · rintro ⟨h1, h2, h3⟩
    have hl := composer_not_less_zero (v := v) h1 h2 h3
    simp [composerConstraintTilde, hl, h1, h2, h3]
  · intro hwc hnz
    constructor
    · intro ht
      rcases hb : composerConstraintLessThan v c with _ | _
      · refine ⟨rfl, ?_⟩
        unfold composerConstraintTilde at ht
        rw [hb] at ht
        simp only [Bool.false_eq_true, if_false] at ht
        split at ht
        · rename_i hc
          exact hc.2.1
        · split at ht
          · rename_i hc
            exact hc.2.1
          · split at ht
            · rename_i hc
              rcases hc with hc | hc
              · rcases hwc with hw | hw <;> rw [hw] at hc <;> exact Wildcard.noConfusion hc
              · exact absurd hc hnz
            · exact absurd ht (by simp)
      · simp [composerConstraintTilde, hb] at ht
    · rintro ⟨hl, hm⟩
      rcases hwc with hw | hw
      · have hmin := composer_minor_ge_of_not_less hl hm
        have hcond : c.ver.minor < v.minor + 1 := by omega
        simp [composerConstraintTilde, hl, hw, hm, hcond]
      · simp [composerConstraintTilde, hl, hw, hm]
  · intro h
    simp [pipConstraintTildeEqual, h]
  · rintro ⟨h1, h2, h3⟩
    have hl := pip_not_less_zero (v := v) h1 h2 h3
    simp [pipConstraintTildeEqual, hl, h1, h2, h3]
  · intro hwc hnz
    constructor
    · intro ht
      rcases hb : pipConstraintLessThan v p with _ | _
      · refine ⟨rfl, ?_⟩
        unfold pipConstraintTildeEqual at ht
        rw [hb] at ht
        simp only [Bool.false_eq_true, if_false] at ht
        split at ht
        · rename_i hc
          exact hc.2.1
        · split at ht
          · rename_i hc
            exact hc.2.1
          · split at ht
            · rename_i hc
              rcases hc with hc | hc
              · rcases hwc with hw | hw <;> rw [hw] at hc <;> exact Wildcard.noConfusion hc
              · exact absurd hc hnz
            · exact absurd ht (by simp)
      · simp [pipConstraintTildeEqual, hb] at ht
    · rintro ⟨hl, hm⟩
      rcases hwc with hw | hw
      · have hmin := pip_minor_ge_of_not_less hl hm
        have hcond : p.ver.minor < v.minor + 1 := by omega
        simp [pipConstraintTildeEqual, hl, hw, hm, hcond]
      · simp [pipConstraintTildeEqual, hl, hw, hm]

/-- Witness for C2: the patch-wildcard acceptance at a concrete version and
clause. -/
theorem C2_witness :
    composerConstraintTilde ⟨2, 3, 0, []⟩ ⟨[], [], ⟨2, 2, 0, []⟩, Wildcard.patch⟩ = true :=
  ((C2_tilde_semantics ⟨2, 3, 0, []⟩ ⟨[], [], ⟨2, 2, 0, []⟩, Wildcard.patch⟩
      ⟨[], [], ⟨0, 0, 0, []⟩, Wildcard.none⟩).2.2.1
    (Or.inr rfl) (by decide)).mpr (by decide)

/-- Claim C3: the Composer caret operator rejects versions lexicographically
below the reference; with a patch wildcard (reference written with
major.minor precision) a version with the reference's major matches iff its
minor equals the reference's minor; in every other case it behaves exactly
like the tilde operator.  `^1.2.3` matches `1.2.3` and `1.9.3` but neither
`1.1.3` nor `2.2.3`. -/
theorem C3_caret_semantics (v : SemVer) (c : ComposerConstraint) :
    (composerConstraintLessThan v c = true → composerConstraintCaret v c = false) ∧
    (c.wildcard = Wildcard.patch → v.major = c.ver.major →
      (composerConstraintCaret v c = true ↔
        (composerConstraintLessThan v c = false ∧ v.minor = c.ver.minor))) ∧
    (¬(c.wildcard = Wildcard.patch ∧ v.major = c.ver.major) →
      composerConstraintCaret v c = composerConstraintTilde v c) ∧
    composerMatches exCaret123 ex123v = some true ∧
    composerMatches exCaret123 ex193 = some true ∧
    composerMatches exCaret123 ex113 = some false ∧
    composerMatches exCaret123 ex223 = some false := by
  refine ⟨?_, ?_, ?_, by decide, by decide, by decide, by decide⟩
  · intro h
    simp [composerConstraintCaret, h]
  · intro hw hm
    rcases hb : composerConstraintLessThan v c with _ | _
    · simp [composerConstraintCaret, hb, hw, hm]
    · simp [composerConstraintCaret, hb]
  · intro hno
    rcases hb : composerConstraintLessThan v c with _ | _
    · simp [composerConstraintCaret, hb, hno]
    · simp [composerConstraintCaret, composerConstraintTilde, hb]

/-- Witness for C3: the fall-through to tilde at a concrete version and
no-wildcard clause. -/
theorem C3_witness :
    composerConstraintCaret ⟨1, 5, 0, []⟩ ⟨['^'], [], ⟨1, 2, 3, []⟩, Wildcard.none⟩ =
      composerConstraintTilde ⟨1, 5, 0, []⟩ ⟨['^'], [], ⟨1, 2, 3, []⟩, Wildcard.none⟩ :=
  (C3_caret_semantics ⟨1, 5, 0, []⟩ ⟨['^'], [], ⟨1, 2, 3, []⟩, Wildcard.none⟩).2.2.1
    (by decide)

/-- Claim C10: a tilde (Composer) or tilde-equal (PIP) clause whose wildcard
position is minor is unsatisfiable unless its reference version is 0.0.0 —
the operator's case analysis has no acceptance branch for a minor-wildcard
reference.  `~1` parses to a minor-wildcard clause with reference 1.0.0 and
matches nothing; PIP `~=1.*` likewise; `~=0` carries the zero reference and
matches everything. -/
theorem C10_minor_wildcard_unsatisfiable (v : SemVer) (c : ComposerConstraint)
    (p : PipConstraint) :
    (c.wildcard = Wildcard.minor →
      ¬(c.ver.major = 0 ∧ c.ver.minor = 0 ∧ c.ver.patch = 0) →
      composerConstraintTilde v c = false) ∧
    (p.wildcard = Wildcard.minor →
      ¬(p.ver.major = 0 ∧ p.ver.minor = 0 ∧ p.ver.patch = 0) →
      pipConstraintTildeEqual v p = false) ∧
    (parseComposerConstraint exTilde1).map
      (fun u => (u.wildcard, u.ver.major, u.ver.minor, u.ver.patch)) =
      some (Wildcard.minor, 1, 0, 0) ∧
    composerMatches exTilde1 ex150 = some false ∧
    (parsePipConstraint exTEStar1).map (fun u => u.wildcard) = some Wildcard.minor ∧
    pipMatches exTEStar1 ex123v = some false ∧
    pipMatches exTE0 ex555 = some true := by
  refine ⟨?_, ?_, by decide, by decide, by decide, by decide, by decide⟩
  · intro hw hnz
    simp [composerConstraintTilde, hw, hnz]
  · intro hw hnz
    simp [pipConstraintTildeEqual, hw, hnz]

/-- Witness for C10: the minor-wildcard clause built from `~1` rejects a
concrete version it would otherwise cover. -/
theorem C10_witness :
    composerConstraintTilde ⟨1, 5, 0, []⟩ ⟨['~'], ['1'], ⟨1, 0, 0, []⟩, Wildcard.minor⟩ =
      false :=
  (C10_minor_wildcard_unsatisfiable ⟨1, 5, 0, []⟩
      ⟨['~'], ['1'], ⟨1, 0, 0, []⟩, Wildcard.minor⟩
      ⟨[], [], ⟨0, 0, 0, []⟩, Wildcard.none⟩).1 rfl (by decide)

/-- A composer version parse can only succeed when the (lower-cased) first
character is `v` or a digit: the anchored grammar admits no leading
garbage. -/
theorem composerVersion_first_char {s : List Char} {v : SemVer}
    (h : NewComposerVersion s = some v) :
    ∃ c t, s = c :: t ∧ (goLower c = 'v' ∨ isDigit (goLower c) = true) := by
  cases s with
  | nil =>
    rw [show NewComposerVersion [] = Option.none from by decide] at h
    exact Option.noConfusion h
  | cons c t =>
    refine ⟨c, t, rfl, ?_⟩
    by_cases hv : goLower c = 'v'
    · exact Or.inl hv
    · by_cases hd : isDigit (goLower c) = true
      · exact Or.inr hd
      · exfalso
        have hz : NewComposerVersion (c :: t) = Option.none := by
          unfold NewComposerVersion parseVerCore stripV
          have hmap : (c :: t).map goLower = goLower c :: t.map goLower := rfl
          rw [hmap]
          simp [hv, hd, List.takeWhile_cons, Bool.not_eq_true _ ▸ hd]
        rw [hz] at h
        exact Option.noConfusion h

/-- Same first-character condition for PIP versions. -/
theorem pipVersion_first_char {s : List Char} {v : SemVer}
    (h : NewPipVersion s = some v) :
    ∃ c t, s = c :: t ∧ (goLower c = 'v' ∨ isDigit (goLower c) = true) := by
  cases s with
  | nil =>
    rw [show NewPipVersion [] = Option.none from by decide] at h
    exact Option.noConfusion h
  | cons c t =>
    refine ⟨c, t, rfl, ?_⟩
    by_cases hv : goLower c = 'v'
    · exact Or.inl hv
    · by_cases hd : isDigit (goLower c) = true
      · exact Or.inr hd
      · exfalso
        have hz : NewPipVersion (c :: t) = Option.none := by
          unfold NewPipVersion parseVerCore stripV
          have hmap : (c :: t).map goLower = goLower c :: t.map goLower := rfl
          rw [hmap]
          simp [hv, hd, List.takeWhile_cons, Bool.not_eq_true _ ▸ hd]
        rw [hz] at h
        exact Option.noConfusion h

/-- Claim C7: version and constraint parsing are anchored — a successful
version parse needs a `v` or digit first character (so any input with
leading garbage such as `hi1.2.3` fails in both ecosystems), trailing
garbage such as `1.2.3!` fails, and the Composer constraint
`>=1.2.3|<=1.4.0` (single pipe instead of `||`) fails to parse. -/
theorem C7_anchored_grammars :
    (∀ (s : List Char) (v : SemVer), NewComposerVersion s = some v →
      ∃ c t, s = c :: t ∧ (goLower c = 'v' ∨ isDigit (goLower c) = true)) ∧
    (∀ (s : List Char) (v : SemVer), NewPipVersion s = some v →
      ∃ c t, s = c :: t ∧ (goLower c = 'v' ∨ isDigit (goLower c) = true)) ∧
    NewComposerVersion exHi = Option.none ∧
    NewPipVersion exHi = Option.none ∧
    NewComposerVersion exTrail = Option.none ∧
    NewPipVersion exTrail = Option.none ∧
    NewComposerConstraints exSinglePipe = Option.none := by
  exact ⟨fun s v h => composerVersion_first_char h,
    fun s v h => pipVersion_first_char h,
    by decide, by decide, by decide, by decide, by decide⟩

/-- Witness for C7: the first-character condition at a concrete parsed
version. -/
theorem C7_witness :
    ∃ c t, exV123 = c :: t ∧ (goLower c = 'v' ∨ isDigit (goLower c) = true) :=
  C7_anchored_grammars.1 exV123 ⟨1, 2, 3, exV123⟩ (by decide)

/-- Claim C9: every successfully parsed version and constraint returns its
original input text verbatim through `Value` (even with uppercase letters or
a leading `v` that parsing normalizes internally), and re-parsing the string
returned by `Value` reproduces a constraint whose `Match` agrees with the
original on every version. -/
theorem C9_raw_roundtrip (s1 s2 s3 s4 : List Char) (v1 v2 : SemVer)
    (c3 : ComposerConstraints) (c4 : PipConstraints)
    (h1 : NewComposerVersion s1 = some v1) (h2 : NewPipVersion s2 = some v2)
    (h3 : NewComposerConstraints s3 = some c3) (h4 : NewPipConstraints s4 = some c4) :
    v1.Value = s1 ∧ v2.Value = s2 ∧ c3.Value = s3 ∧ c4.Value = s4 ∧
    NewComposerConstraints c3.Value = some c3 ∧
    NewPipConstraints c4.Value = some c4 ∧
    (∀ cc, NewComposerConstraints c3.Value = some cc →
      ∀ ver, cc.Match ver = c3.Match ver) ∧
    (∀ pc, NewPipConstraints c4.Value = some pc →
      ∀ ver, pc.Match ver = c4.Match ver) := by
  have e1 : v1.Value = s1 := composerVersion_value h1
  have e2 : v2.Value = s2 := pipVersion_value h2
  have e3 : c3.Value = s3 := composerConstraints_value h3
  have e4 : c4.Value = s4 := pipConstraints_value h4
  refine ⟨e1, e2, e3, e4, by rw [e3]; exact h3, by rw [e4]; exact h4, ?_, ?_⟩
  · intro cc hcc ver
    rw [e3, h3] at hcc
    cases hcc
    rfl
  · intro pc hpc ver
    rw [e4, h4] at hpc
    cases hpc
    rfl

/-- Witness for C9: verbatim `Value` round-trips at concrete inputs
(`V1.2.3` exercises the case normalization, `1.2.3.4` the ignored fourth PIP
segment). -/
theorem C9_witness :
    ComposerConstraints.Value ⟨exCaret12,
        [[⟨['^'], exOneTwo, ⟨1, 2, 0, exOneTwoZero⟩, Wildcard.patch⟩]]⟩ = exCaret12 ∧
    NewComposerConstraints (ComposerConstraints.Value ⟨exCaret12,
        [[⟨['^'], exOneTwo, ⟨1, 2, 0, exOneTwoZero⟩, Wildcard.patch⟩]]⟩) =
      some ⟨exCaret12, [[⟨['^'], exOneTwo, ⟨1, 2, 0, exOneTwoZero⟩, Wildcard.patch⟩]]⟩ ∧
    SemVer.Value ⟨1, 2, 3, exV123⟩ = exV123 := by
  have h := C9_raw_roundtrip exV123 exP1234 exCaret12 exTE22
    ⟨1, 2, 3, exV123⟩ ⟨1, 2, 3, exP1234⟩
    ⟨exCaret12, [[⟨['^'], exOneTwo, ⟨1, 2, 0, exOneTwoZero⟩, Wildcard.patch⟩]]⟩
    ⟨exTE22, [⟨['~', '='], exTwoTwo, ⟨2, 2, 0, exTwoTwoZero⟩, Wildcard.patch⟩]⟩
    (by decide) (by decide) (by decide) (by decide)
  exact ⟨h.2.2.1, h.2.2.2.2.1, h.1⟩

/-- Claim C4 (amended): PIP parsing fails on any expression with an empty
comma-separated clause (including the empty and whitespace-only strings) and
both ecosystems fail on a present-but-malformed clause token, but Composer
expressions whose OR-alternatives split into zero clause tokens — the empty
string, whitespace-only input, and an empty OR alternative as in `>=1.0||` —
parse successfully and yield an empty AND group that matches every
version. -/
theorem C4_amended_parse_errors (s : List Char) :
    ([] ∈ splitComma s → NewPipConstraints s = Option.none) ∧
    NewPipConstraints [] = Option.none ∧
    NewPipConstraints exSpaces = Option.none ∧
    (∀ cc : ComposerConstraints, NewComposerConstraints [] = some cc →
      ∀ v, cc.Match v = true) ∧
    (∀ cc : ComposerConstraints, NewComposerConstraints exSpaces = some cc →
      ∀ v, cc.Match v = true) ∧
    (∀ cc : ComposerConstraints, NewComposerConstraints exGe10Or = some cc →
      ∀ v, cc.Match v = true) ∧
    NewComposerConstraints exFoo = Option.none ∧
    NewPipConstraints exFoo = Option.none := by
  refine ⟨?_, by decide, by decide, ?_, ?_, ?_, by decide, by decide⟩
  · intro hmem
    unfold NewPipConstraints
    rw [parseList_none_of_mem parsePipConstraint hmem (by decide)]
  · intro cc hcc v
    rw [show NewComposerConstraints [] =
        some (⟨[], [[]]⟩ : ComposerConstraints) from by decide] at hcc
    cases hcc
    rfl
  · intro cc hcc v
    rw [show NewComposerConstraints exSpaces =
        some (⟨exSpaces, [[]]⟩ : ComposerConstraints) from by decide] at hcc
    cases hcc
    rfl
  · intro cc hcc v
    rw [show NewComposerConstraints exGe10Or =
        some (⟨exGe10Or, [[⟨['>', '='], exOneZero,
          ⟨1, 0, 0, exOneZeroZero⟩, Wildcard.patch⟩], []]⟩ : ComposerConstraints)
        from by decide] at hcc
    cases hcc
    simp [ComposerConstraints.Match]

/-- Witness for C4: a trailing comma is an empty PIP clause and fails, while
the Composer constraints built from the empty string match a concrete
version. -/
theorem C4_witness :
    NewPipConstraints [','] = Option.none ∧
    ComposerConstraints.Match ⟨[], [[]]⟩ ⟨9, 9, 9, []⟩ = true :=
  ⟨(C4_amended_parse_errors [',']).1 (by decide),
    (C4_amended_parse_errors []).2.2.2.1 ⟨[], [[]]⟩ (by decide) ⟨9, 9, 9, []⟩⟩

end Dephub
